import Mathlib

/-!
# Formal model of the checkpoint item store, achievement ledger and migration pipeline

This file gives a shallow embedding, in Lean 4, of the core data layer of the
repository: the item repository (`src/lib/data/items.ts`), the achievement
ledger (`src/lib/data/achievements.ts`), the daily baseline tracker
(`src/lib/data/dailyPoints.ts`), the auto-link engine
(`src/lib/autolink/detection.ts`), the conflict-resolution module
(`lib/migration/conflicts`) and the migration status tracker
(`lib/migration/status`).

Modelling conventions:
* `localStorage` is modelled as an explicit `Store` value threaded through the
  operations; nondeterministic inputs of the source (`generateUUID()`,
  `new Date()`) are passed as explicit parameters.
* Item timestamps (`created_at`, `updated_at`, `completed_at`, `deleted_at`)
  are modelled as epoch numbers (`Nat` / `Option Nat`): the source only ever
  observes them through `new Date(x).getTime()` comparisons and `null` checks.
  Achievement and daily-points timestamps stay `String` (ISO form) because the
  source manipulates them textually (`split('T')[0]`, lexicographic `>=`).
* Functions that `throw` (Zod validation, status-tracker errors) return
  `Except String _`; functions returning `x ?? null` return `Option _`.
-/

namespace Checkpoint

/-! ## String helpers

JavaScript string primitives used by the source, re-implemented structurally
on `List Char` so that every definition evaluates inside the kernel. -/

/-- `c.toLowerCase()` on a single character (ASCII range, which is all the
source relies on for its case-insensitive comparisons). -/
def charToLower (c : Char) : Char :=
  if c.toNat ≥ 65 && c.toNat ≤ 90 then Char.ofNat (c.toNat + 32) else c

/-- `s.toLowerCase()` as used by `getItemsByText` and the auto-link engine. -/
def lowerStr (s : String) : String :=
  ⟨s.data.map charToLower⟩

/-- Characters of the first segment of `s.split('T')`: everything before the
first `'T'`. -/
def takeUntilT : List Char → List Char
  | [] => []
  | c :: cs => if c == 'T' then [] else c :: takeUntilT cs

/-- `s.split('T')[0]`, used to extract the calendar-date part of an ISO
timestamp in `getAchievementsByDateRange`. -/
def datePart (s : String) : String :=
  ⟨takeUntilT s.data⟩

/-- Lexicographic `≤` on character lists: JavaScript string comparison
(`a <= b`) restricted to the code points the data uses. -/
def charListLe : List Char → List Char → Bool
  | [], _ => true
  | _ :: _, [] => false
  | a :: as, b :: bs => if a < b then true else if b < a then false else charListLe as bs

/-- JavaScript `a <= b` on strings. -/
def strLe (a b : String) : Bool :=
  charListLe a.data b.data

/-- Split a character list at every `'-'` (JavaScript `s.split('-')`). -/
def splitOnDash : List Char → List (List Char)
  | [] => [[]]
  | c :: cs =>
    if c == '-' then [] :: splitOnDash cs
    else
      match splitOnDash cs with
      | [] => [[c]]
      | g :: gs => (c :: g) :: gs

/-- Hexadecimal digit test for the UUID shape check. -/
def isHexDigit (c : Char) : Bool :=
  c.isDigit || (('a' ≤ c) && (c ≤ 'f')) || (('A' ≤ c) && (c ≤ 'F'))

/-- Zod `z.string().uuid()`: the 8-4-4-4-12 hexadecimal shape. -/
def isUUID (s : String) : Bool :=
  match splitOnDash s.data with
  | [a, b, c, d, e] =>
    a.length == 8 && b.length == 4 && c.length == 4 && d.length == 4 && e.length == 12 &&
    (a ++ b ++ c ++ d ++ e).all isHexDigit
  | _ => false

/-- Zod regex `^\d{4}-\d{2}-\d{2}$` of `dailyPointsSchema.date`. -/
def isDateFormat (s : String) : Bool :=
  match s.data with
  | [y1, y2, y3, y4, h1, m1, m2, h2, d1, d2] =>
    y1.isDigit && y2.isDigit && y3.isDigit && y4.isDigit && h1 == '-' &&
    m1.isDigit && m2.isDigit && h2 == '-' && d1.isDigit && d2.isDigit
  | _ => false

/-! ## Data model (`src/types/database.ts`) -/

/-- `ItemRow['type']`: the closed `direction | waypoint | step` enumeration. -/
inductive ItemType where
  | direction
  | waypoint
  | step
deriving DecidableEq, Repr

/-- `DEFAULT_POINTS` from `src/types/database.ts`. -/
def DEFAULT_POINTS : ItemType → Nat
  | .direction => 100
  | .waypoint => 25
  | .step => 5

/-- `DEFAULT_DAILY_BASELINE` from `src/types/database.ts`. -/
def DEFAULT_DAILY_BASELINE : Nat := 10

/-- `ItemRow` from `src/types/database.ts` (timestamps as epoch numbers, see
the module conventions). -/
structure ItemRow where
  id : String
  user_id : Option String
  text : String
  type : ItemType
  parent_id : Option String
  position : Nat
  completed : Bool
  completed_at : Option Nat
  points : Nat
  deleted_at : Option Nat
  created_at : Nat
  updated_at : Nat
deriving DecidableEq, Repr

/-- `AchievementRow` from `src/types/database.ts`. -/
structure AchievementRow where
  id : String
  user_id : Option String
  item_id : String
  points_earned : Nat
  achieved_at : String
  created_at : String
deriving DecidableEq, Repr

/-- `DailyPointsRow` from `src/types/database.ts`. -/
structure DailyPointsRow where
  id : String
  user_id : Option String
  date : String
  baseline_points : Nat
  created_at : String
deriving DecidableEq, Repr

/-- The persistent medium: the three localStorage buckets the verified
operations touch (`getItems`/`setItems`, `getAchievements`/`setAchievements`,
`getDailyPoints`/`setDailyPoints`). -/
structure Store where
  items : List ItemRow
  achievements : List AchievementRow
  dailyPoints : List DailyPointsRow
deriving DecidableEq, Repr

/-! ## Validation (`src/schemas/validation.ts`) -/

/-- `ItemCreateInput`: argument of `itemCreateSchema.parse`. An absent
optional field is `none`; `parent_id` is nullable and optional, hence
`Option (Option String)`. -/
structure ItemCreateInput where
  text : String
  type : ItemType
  parent_id : Option (Option String) := none
  position : Option Nat := none
  points : Option Nat := none
deriving DecidableEq, Repr

/-- The checks `itemCreateSchema` performs beyond what the Lean field types
already enforce (`position`/`points` are `Nat`, `type` is the enumeration). -/
def itemCreateValid (u : ItemCreateInput) : Bool :=
  (1 ≤ u.text.length && u.text.length ≤ 5000) &&
  (match u.parent_id with
   | some (some p) => isUUID p
   | _ => true)

/-- `ItemUpdateInput`: argument of `itemUpdateSchema.parse`; every field
optional. -/
structure ItemUpdateInput where
  text : Option String := none
  type : Option ItemType := none
  parent_id : Option (Option String) := none
  position : Option Nat := none
  completed : Option Bool := none
  points : Option Nat := none
deriving DecidableEq, Repr

/-- The checks `itemUpdateSchema` performs beyond the Lean field types. -/
def itemUpdateValid (u : ItemUpdateInput) : Bool :=
  (match u.text with
   | some t => 1 ≤ t.length && t.length ≤ 5000
   | none => true) &&
  (match u.parent_id with
   | some (some p) => isUUID p
   | _ => true)

/-- `AchievementCreateInput`: argument of `achievementCreateSchema.parse`. -/
structure AchievementCreateInput where
  item_id : String
  points_earned : Nat
deriving DecidableEq, Repr

/-- `achievementCreateSchema` checks (`item_id` must be UUID-shaped;
`points_earned` non-negativity is carried by `Nat`). -/
def achievementCreateValid (u : AchievementCreateInput) : Bool :=
  isUUID u.item_id

/-- Error message standing for a thrown `ZodError`. -/
def zodError : String := "ZodError"

/-- Decidable equality for `Except`, so witnesses can evaluate operations that
model thrown exceptions. -/
instance {ε α : Type} [DecidableEq ε] [DecidableEq α] : DecidableEq (Except ε α) :=
  fun a b =>
    match a, b with
    | .ok x, .ok y =>
      if h : x = y then .isTrue (by rw [h]) else .isFalse (by simp [h])
    | .error x, .error y =>
      if h : x = y then .isTrue (by rw [h]) else .isFalse (by simp [h])
    | .ok _, .error _ => .isFalse (by simp)
    | .error _, .ok _ => .isFalse (by simp)

/-! ## Item repository (`src/lib/data/items.ts`) -/

/-- `createItem` (items.ts:58). `id` models `generateUUID()`, `now` models
`new Date().toISOString()` as an epoch number. -/
def createItem (input : ItemCreateInput) (id : String) (now : Nat) (s : Store) :
    Except String (ItemRow × Store) :=
  if itemCreateValid input then
    let item : ItemRow :=
      { id := id
        user_id := none
        text := input.text
        type := input.type
        parent_id := input.parent_id.join
        position := input.position.getD 0
        completed := false
        completed_at := none
        points := input.points.getD (DEFAULT_POINTS input.type)
        deleted_at := none
        created_at := now
        updated_at := now }
    .ok (item, { s with items := s.items ++ [item] })
  else .error zodError

/-- The merged row `{...currentItem, ...validated, completed_at, updated_at: now}`
built by `updateItem` (items.ts:138). -/
def mergeUpdate (cur : ItemRow) (u : ItemUpdateInput) (completed_at : Option Nat)
    (now : Nat) : ItemRow :=
  { cur with
    text := u.text.getD cur.text
    type := u.type.getD cur.type
    parent_id := match u.parent_id with
      | some v => v
      | none => cur.parent_id
    position := u.position.getD cur.position
    completed := u.completed.getD cur.completed
    points := u.points.getD cur.points
    completed_at := completed_at
    updated_at := now }

/-- `updateItem` (items.ts:113). `findIndex` returning `-1` corresponds to
`List.findIdx` returning the length. -/
def updateItem (itemId : String) (updates : ItemUpdateInput) (now : Nat) (s : Store) :
    Except String (Option ItemRow × Store) :=
  if itemUpdateValid updates then
    let items := s.items
    let index := items.findIdx (fun item => item.id == itemId)
    if h : index < items.length then
      let currentItem := items.get ⟨index, h⟩
      let completed_at : Option Nat :=
        if updates.completed == some true && !currentItem.completed then some now
        else if updates.completed == some false then none
        else currentItem.completed_at
      let updatedItem := mergeUpdate currentItem updates completed_at now
      .ok (some updatedItem, { s with items := items.set index updatedItem })
    else .ok (none, s)
  else .error zodError

/-- `deleteItem` (items.ts:172): soft delete by stamping `deleted_at` and
`updated_at`. -/
def deleteItem (itemId : String) (now : Nat) (s : Store) : Option (ItemRow × Store) :=
  let items := s.items
  let index := items.findIdx (fun item => item.id == itemId)
  if h : index < items.length then
    let deletedItem : ItemRow :=
      { items.get ⟨index, h⟩ with deleted_at := some now, updated_at := now }
    some (deletedItem, { s with items := items.set index deletedItem })
  else none

/-- `restoreItem` (items.ts:382): clears `deleted_at`. -/
def restoreItem (itemId : String) (now : Nat) (s : Store) : Option (ItemRow × Store) :=
  let items := s.items
  let index := items.findIdx (fun item => item.id == itemId)
  if h : index < items.length then
    let restoredItem : ItemRow :=
      { items.get ⟨index, h⟩ with deleted_at := none, updated_at := now }
    some (restoredItem, { s with items := items.set index restoredItem })
  else none

/-- `getItemById` (items.ts:211): first match regardless of `deleted_at`. -/
def getItemById (itemId : String) (s : Store) : Option ItemRow :=
  s.items.find? (fun item => item.id == itemId)

/-- `getActiveItemById` (items.ts:232). -/
def getActiveItemById (itemId : String) (s : Store) : Option ItemRow :=
  s.items.find? (fun item => item.id == itemId && item.deleted_at == none)

/-- Stable insertion of `x` into a list sorted by `created_at`: `x` goes after
every element whose key is `≤` its own, which is exactly where the stable
`Array.prototype.sort` comparator `(a, b) => timeA - timeB` places it. -/
def sortedInsertByCreated (x : ItemRow) : List ItemRow → List ItemRow
  | [] => [x]
  | y :: ys =>
    if x.created_at < y.created_at then x :: y :: ys
    else y :: sortedInsertByCreated x ys

/-- Stable sort by `created_at` ascending (insertion sort, left to right,
matching the stable JavaScript sort used in `getItemsByText`). -/
def sortByCreatedAt (l : List ItemRow) : List ItemRow :=
  l.foldl (fun acc x => sortedInsertByCreated x acc) []

/-- `getItemsByText` (items.ts:350): case-insensitive match on active items,
ordered by `created_at` ascending. -/
def getItemsByText (text : String) (s : Store) : List ItemRow :=
  let lowerText := lowerStr text
  sortByCreatedAt (s.items.filter
    (fun item => lowerStr item.text == lowerText && item.deleted_at == none))

/-- `getActiveItems` (items.ts:303). -/
def getActiveItems (s : Store) : List ItemRow :=
  s.items.filter (fun item => item.deleted_at == none)

/-! ## Achievement ledger (`src/lib/data/achievements.ts`) -/

/-- `createAchievement` (achievements.ts:51). `id` models `generateUUID()`;
`now` models `new Date().toISOString()`. The point value is copied from the
input, never referenced from the live item. -/
def createAchievement (input : AchievementCreateInput) (id : String) (now : String)
    (s : Store) : Except String (AchievementRow × Store) :=
  if achievementCreateValid input then
    let achievement : AchievementRow :=
      { id := id
        user_id := none
        item_id := input.item_id
        points_earned := input.points_earned
        achieved_at := now
        created_at := now }
    .ok (achievement, { s with achievements := s.achievements ++ [achievement] })
  else .error zodError

/-- `deleteAchievement` (achievements.ts:94): hard delete of the ledger row. -/
def deleteAchievement (achievementId : String) (s : Store) : Bool × Store :=
  let achievements := s.achievements
  let index := achievements.findIdx (fun a => a.id == achievementId)
  if index < achievements.length then
    (true, { s with achievements := achievements.eraseIdx index })
  else (false, s)

/-- `getAchievementsByDateRange` (achievements.ts:183): calendar-date filter,
inclusive on both ends; `userId === null` disables the owner filter. -/
def getAchievementsByDateRange (startDate endDate : String) (userId : Option String)
    (s : Store) : List AchievementRow :=
  s.achievements.filter (fun a =>
    let achievedDate := datePart a.achieved_at
    (strLe startDate achievedDate && strLe achievedDate endDate) &&
    (userId == none || a.user_id == userId))

/-- `calculatePointsForDateRange` (achievements.ts:267). -/
def calculatePointsForDateRange (startDate endDate : String) (userId : Option String)
    (s : Store) : Nat :=
  (getAchievementsByDateRange startDate endDate userId s).foldl
    (fun sum a => sum + a.points_earned) 0

/-! ## Daily baseline tracker (`src/lib/data/dailyPoints.ts`) -/

/-- `getDailyPointsForDate` (dailyPoints.ts:103). -/
def getDailyPointsForDate (date : String) (userId : Option String) (s : Store) :
    Option DailyPointsRow :=
  s.dailyPoints.find? (fun dp => dp.date == date && dp.user_id == userId)

/-- `ensureDailyPointsRecord` (dailyPoints.ts:50): validate, return the
existing record if one matches `(date, userId)`, otherwise append a fresh
one. `id` models `generateUUID()`, `now` models `new Date().toISOString()`. -/
def ensureDailyPointsRecord (date : String) (userId : Option String)
    (baselinePoints : Nat) (id : String) (now : String) (s : Store) :
    Except String (DailyPointsRow × Store) :=
  if isDateFormat date then
    match getDailyPointsForDate date userId s with
    | some existing => .ok (existing, s)
    | none =>
      let record : DailyPointsRow :=
        { id := id
          user_id := userId
          date := date
          baseline_points := baselinePoints
          created_at := now }
      .ok (record, { s with dailyPoints := s.dailyPoints ++ [record] })
  else .error zodError

/-! ## Auto-link engine (`src/lib/autolink/detection.ts`) -/

/-- `findDuplicateItems` (detection.ts:51): delegates to `getItemsByText`. -/
def findDuplicateItems (text : String) (s : Store) : List ItemRow :=
  getItemsByText text s

/-- The `{id, parent_text}` objects placed in `linkedInstances`
(detection.ts:177). -/
structure LinkedInstance where
  id : String
  parent_text : String
deriving DecidableEq, Repr

/-- The enriched `Item` type (`ItemRow` plus the two optional auto-link
fields); `none` models an absent field. -/
structure Item where
  row : ItemRow
  linkedInstances : Option (List LinkedInstance)
  isCanonical : Option Bool
deriving DecidableEq, Repr

/-- `determineCanonicalInstance` (detection.ts:81). The empty-array case
throws in the source, modelled by `none`. -/
def determineCanonicalInstance (items : List ItemRow) : Option (Item × List ItemRow) :=
  match items with
  | [] => none
  | first :: rest => some (⟨first, none, some true⟩, rest)

/-- `duplicatesMap.set` semantics of the JavaScript `Map` used by
`enrichItemsWithAutoLinks`, on an association list. -/
def mapSet (k : String) (v : List ItemRow) :
    List (String × List ItemRow) → List (String × List ItemRow)
  | [] => [(k, v)]
  | (k2, v2) :: m => if k2 == k then (k, v) :: m else (k2, v2) :: mapSet k v m

/-- `duplicatesMap.get` on the association list. -/
def mapGet (k : String) : List (String × List ItemRow) → Option (List ItemRow)
  | [] => none
  | (k2, v) :: m => if k2 == k then some v else mapGet k m

/-- One step of the first `forEach` of `enrichItemsWithAutoLinks`
(detection.ts:137): skip already-processed lowercase texts, otherwise look up
the text group and, when it has more than one member, record it in the map
under every member id. -/
def duplicatesMapStep (s : Store) (st : List String × List (String × List ItemRow))
    (item : ItemRow) : List String × List (String × List ItemRow) :=
  let lowerText := lowerStr item.text
  if st.1.contains lowerText then st
  else
    let duplicates := findDuplicateItems item.text s
    let m :=
      if duplicates.length > 1 then
        duplicates.foldl (fun m dup => mapSet dup.id duplicates m) st.2
      else st.2
    (lowerText :: st.1, m)

/-- The `duplicatesMap` built by `enrichItemsWithAutoLinks` before the
enrichment pass. -/
def buildDuplicatesMap (s : Store) (items : List ItemRow) :
    List (String × List ItemRow) :=
  (items.foldl (duplicatesMapStep s) ([], [])).2

/-- The `parent_text` breadcrumb computed for a linked instance
(detection.ts:169). -/
def parentText (s : Store) (linkedItem : ItemRow) : String :=
  match linkedItem.parent_id with
  | none => "(root)"
  | some pid =>
    match getItemById pid s with
    | some parent => parent.text
    | none => "(root)"

/-- `enrichItemsWithAutoLinks` (detection.ts:130). Items without duplicates
are returned with both enrichment fields absent. The `determineCanonicalInstance`
fall-through is unreachable because the map only stores groups of length
`> 1`. -/
def enrichItemsWithAutoLinks (s : Store) (items : List ItemRow) : List Item :=
  let duplicatesMap := buildDuplicatesMap s items
  items.map (fun item =>
    match mapGet item.id duplicatesMap with
    | none => ⟨item, none, none⟩
    | some duplicates =>
      if duplicates.length ≤ 1 then ⟨item, none, none⟩
      else
        match determineCanonicalInstance duplicates with
        | none => ⟨item, none, none⟩
        | some (canonical, _) =>
          let otherInstances := duplicates.filter (fun dup => dup.id != item.id)
          let linkedInstances := otherInstances.map
            (fun linkedItem => LinkedInstance.mk linkedItem.id (parentText s linkedItem))
          ⟨item, some linkedInstances, some (item.id == canonical.row.id)⟩)

/-- The `{deletedCount, itemIds}` result of `handleItemDeletion`. -/
structure DeletionResult where
  deletedCount : Nat
  itemIds : List String
deriving DecidableEq, Repr

/-- `handleItemDeletion` (detection.ts:218). The lookup is `getItemById`,
which also finds soft-deleted rows. Each inner `deleteItem` call uses a fresh
`new Date()` in the source; a single `now` is passed here, which the verified
properties do not distinguish. -/
def handleItemDeletion (itemId : String) (deleteAll : Bool) (now : Nat) (s : Store) :
    DeletionResult × Store :=
  match getItemById itemId s with
  | none => (⟨0, []⟩, s)
  | some item =>
    if !deleteAll then
      match deleteItem itemId now s with
      | some (_, s2) => (⟨1, [itemId]⟩, s2)
      | none => (⟨0, []⟩, s)
    else
      let duplicates := findDuplicateItems item.text s
      let step := fun (acc : List String × Store) (dup : ItemRow) =>
        match deleteItem dup.id now acc.2 with
        | some (_, s2) => (acc.1 ++ [dup.id], s2)
        | none => acc
      let final := duplicates.foldl step ([], s)
      (⟨final.1.length, final.1⟩, final.2)

/-! ## Conflict resolution (`lib/migration/conflicts`, `src/unnamed/part_012`) -/

/-- `ConflictStrategy` from `src/types/migration.ts`. -/
inductive ConflictStrategy where
  | keep_local
  | keep_cloud
  | keep_both
  | keep_newest
  | manual_review
deriving DecidableEq, Repr

/-- The `conflictReason` discriminator of `ConflictItem`. -/
inductive ConflictReason where
  | text_match
  | id_match
deriving DecidableEq, Repr

/-- `ConflictItem` from `src/types/migration.ts`. -/
structure ConflictItem where
  localItem : ItemRow
  cloudItem : ItemRow
  conflictReason : ConflictReason
deriving DecidableEq, Repr

/-- `resolveConflict` (part_012:115): the array of items to upsert remotely.
`keep_both` on an `id_match` returns the cloud and local rows unchanged (the
comment in the source defers new-UUID generation to an execution layer that
does not exist in the repository); `keep_newest` ties return `[]`, keeping the
cloud row. -/
def resolveConflict (conflict : ConflictItem) (strategy : ConflictStrategy) :
    List ItemRow :=
  match strategy with
  | .keep_local => [conflict.localItem]
  | .keep_cloud => []
  | .keep_both =>
    if conflict.conflictReason == ConflictReason.id_match then
      [conflict.cloudItem, conflict.localItem]
    else
      [conflict.localItem]
  | .keep_newest =>
    let localUpdated := conflict.localItem.updated_at
    let cloudUpdated := conflict.cloudItem.updated_at
    if localUpdated > cloudUpdated then [conflict.localItem]
    else if cloudUpdated > localUpdated then []
    else []
  | .manual_review => []

/-! ## Migration status tracker (`lib/migration/status`, `src/unnamed/part_013`)

The single localStorage slot under `waypoint:migration_status` is modelled as
an `Option MigrationStatusRecord` threaded through the operations; a thrown
`Error` is an `Except.error` leaving the slot unchanged. -/

/-- `MigrationState.status` values. -/
inductive MigStatus where
  | pending
  | in_progress
  | completed
  | failed
deriving DecidableEq, Repr

/-- `MigrationState` from `src/types/migration.ts`. -/
structure MigrationState where
  status : MigStatus
  startedAt : Option String
  completedAt : Option String
  lastError : Option String
deriving DecidableEq, Repr

/-- `MigrationResult` from `src/types/migration.ts`. -/
structure MigrationResult where
  itemsMigrated : Nat
  achievementsMigrated : Nat
  dailyPointsMigrated : Nat
  errors : List String
  warnings : List String
deriving DecidableEq, Repr

/-- `MigrationOptions` from `src/types/migration.ts`. -/
structure MigrationOptions where
  deleteLocalAfterMigration : Bool
  conflictStrategy : ConflictStrategy
  preserveTimestamps : Bool
  createBackup : Bool
deriving DecidableEq, Repr

/-- `MigrationStatusRecord` from `src/types/migration.ts`. -/
structure MigrationStatusRecord where
  migrationId : String
  userId : String
  state : MigrationState
  result : Option MigrationResult
  options : MigrationOptions
deriving DecidableEq, Repr

/-- `getMigrationStatus` (part_013:43): read the slot (parse failures already
collapse to `none` in the model). -/
def getMigrationStatus (st : Option MigrationStatusRecord) :
    Option MigrationStatusRecord :=
  st

/-- `isMigrationCompleted` (part_013:68): `status?.state.status === 'completed'`. -/
def isMigrationCompleted (st : Option MigrationStatusRecord) : Bool :=
  match getMigrationStatus st with
  | some record => record.state.status == MigStatus.completed
  | none => false

/-- The fresh `pending` record `initializeMigration` builds (part_013:106). -/
def freshMigrationRecord (userId : String) (options : MigrationOptions)
    (freshId : String) : MigrationStatusRecord :=
  { migrationId := freshId
    userId := userId
    state :=
      { status := MigStatus.pending
        startedAt := none
        completedAt := none
        lastError := none }
    result := none
    options := options }

/-- `initializeMigration` (part_013:95): refuse only when a record with status
`in_progress` exists; otherwise overwrite the slot with a fresh `pending`
record. `freshId` models `generateUUID()`. -/
def initializeMigration (userId : String) (options : MigrationOptions)
    (freshId : String) (st : Option MigrationStatusRecord) :
    Except String (MigrationStatusRecord × Option MigrationStatusRecord) :=
  let existing := getMigrationStatus st
  if (existing.map (fun e => e.state.status)) == some MigStatus.in_progress then
    .error "Migration is already in progress"
  else
    let record := freshMigrationRecord userId options freshId
    .ok (record, some record)

/-- `startMigration` (part_013:138). `now` models `new Date().toISOString()`. -/
def startMigration (migrationId : String) (now : String)
    (st : Option MigrationStatusRecord) :
    Except String (Option MigrationStatusRecord) :=
  match getMigrationStatus st with
  | none => .error "Migration record not found"
  | some record =>
    if record.migrationId == migrationId then
      .ok (some { record with
        state := { record.state with
          status := MigStatus.in_progress
          startedAt := some now } })
    else .error "Migration record not found"

/-- `completeMigration` (part_013:172). -/
def completeMigration (migrationId : String) (result : MigrationResult)
    (now : String) (st : Option MigrationStatusRecord) :
    Except String (Option MigrationStatusRecord) :=
  match getMigrationStatus st with
  | none => .error "Migration record not found"
  | some record =>
    if record.migrationId == migrationId then
      .ok (some { record with
        state := { record.state with
          status := MigStatus.completed
          completedAt := some now }
        result := some result })
    else .error "Migration record not found"

/-- `failMigration` (part_013:203). -/
def failMigration (migrationId : String) (errorMessage : String)
    (st : Option MigrationStatusRecord) :
    Except String (Option MigrationStatusRecord) :=
  match getMigrationStatus st with
  | none => .error "Migration record not found"
  | some record =>
    if record.migrationId == migrationId then
      .ok (some { record with
        state := { record.state with
          status := MigStatus.failed
          lastError := some errorMessage } })
    else .error "Migration record not found"

/-- `resetMigration` (part_013:315): only a `failed` record may go back to
`pending`. -/
def resetMigration (migrationId : String) (st : Option MigrationStatusRecord) :
    Except String (Option MigrationStatusRecord) :=
  match getMigrationStatus st with
  | none => .error "Migration record not found"
  | some record =>
    if record.migrationId == migrationId then
      if record.state.status != MigStatus.failed then
        .error "Can only reset failed migrations"
      else
        .ok (some { record with
          state :=
            { status := MigStatus.pending
              startedAt := none
              completedAt := none
              lastError := none }
          result := none })
    else .error "Migration record not found"

/-! ## Shared example data for witnesses and counterexamples -/

/-- A plain active waypoint row, parameterised for reuse in concrete
evaluations. -/
def exItem (id : String) (text : String) (created : Nat) : ItemRow :=
  { id := id
    user_id := none
    text := text
    type := ItemType.waypoint
    parent_id := none
    position := 0
    completed := false
    completed_at := none
    points := 25
    deleted_at := none
    created_at := created
    updated_at := created }

/-- Store holding a single active item, the starting point of the C1
witness. -/
def exStoreC1 : Store :=
  { items := [exItem "i1" "Ship" 1], achievements := [], dailyPoints := [] }

/-- The achievement row the C1 witness records. -/
def exAch : AchievementRow :=
  { id := "ach-1"
    user_id := none
    item_id := "123e4567-e89b-12d3-a456-426614174000"
    points_earned := 25
    achieved_at := "2024-01-01T00:00:00.000Z"
    created_at := "2024-01-01T00:00:00.000Z" }

/-- `exStoreC1` after recording `exAch`. -/
def exStoreAfterRec : Store :=
  { exStoreC1 with achievements := [exAch] }

/-- `exStoreAfterRec` after updating the item's points to 999. -/
def exStoreAfterUpd : Store :=
  { exStoreAfterRec with
    items := [{ exItem "i1" "Ship" 1 with points := 999, updated_at := 50 }] }

/-- Parent-and-child store for the C2 witness. -/
def exStoreC2 : Store :=
  { items := [exItem "p1" "Parent" 1, { exItem "c1" "Child" 2 with parent_id := some "p1" }]
    achievements := []
    dailyPoints := [] }

/-- The parent row of `exStoreC2` after soft deletion at time 9. -/
def exDeletedParent : ItemRow :=
  { exItem "p1" "Parent" 1 with deleted_at := some 9, updated_at := 9 }

/-- `exStoreC2` after soft-deleting the parent. -/
def exStoreC2Deleted : Store :=
  { exStoreC2 with
    items := [exDeletedParent, { exItem "c1" "Child" 2 with parent_id := some "p1" }] }

/-- An `id_match` conflict: same id `"X"` on both sides, different text,
local side newer. -/
def exConflictId : ConflictItem :=
  { localItem := { exItem "X" "local text" 1 with updated_at := 10 }
    cloudItem := { exItem "X" "cloud text" 1 with updated_at := 5 }
    conflictReason := ConflictReason.id_match }

/-- A `text_match` conflict with distinct ids and the cloud side newer. -/
def exConflictText : ConflictItem :=
  { localItem := { exItem "L" "shared" 1 with updated_at := 5 }
    cloudItem := { exItem "C" "shared" 1 with updated_at := 5 }
    conflictReason := ConflictReason.text_match }

/-- Store for the C5 counterexample: one soft-deleted row plus an active row
sharing its text. -/
def exStoreC5 : Store :=
  { items := [{ exItem "d1" "dup" 1 with deleted_at := some 3, updated_at := 3 },
      exItem "d2" "dup" 2]
    achievements := []
    dailyPoints := [] }

/-- An achievement record belonging to owner `"bob"`, for the C10
counterexample. -/
def exAchBob : AchievementRow :=
  { id := "a1"
    user_id := some "bob"
    item_id := "123e4567-e89b-12d3-a456-426614174000"
    points_earned := 25
    achieved_at := "2024-01-01T10:00:00.000Z"
    created_at := "2024-01-01T10:00:00.000Z" }

/-- Achievements store for the C10 counterexample: only `exAchBob`. -/
def exStoreC10 : Store :=
  { items := []
    achievements := [exAchBob]
    dailyPoints := [] }

/-- The daily record created by the first C6 witness call. -/
def exDaily1 : DailyPointsRow :=
  { id := "dp-1"
    user_id := none
    date := "2024-01-01"
    baseline_points := 10
    created_at := "2024-01-01T08:00:00.000Z" }

/-- The record returned by the second C6 witness call (the stored one). -/
def exDaily2 : DailyPointsRow := exDaily1

/-- The store after the first C6 witness call. -/
def exStoreC6a : Store :=
  { items := [], achievements := [], dailyPoints := [exDaily1] }

/-- The store after the second C6 witness call (unchanged). -/
def exStoreC6b : Store := exStoreC6a

/-- Migration options used by the C4 examples. -/
def exOptions : MigrationOptions :=
  { deleteLocalAfterMigration := false
    conflictStrategy := ConflictStrategy.keep_newest
    preserveTimestamps := true
    createBackup := true }

/-- A migration result used by the C4 examples. -/
def exResult : MigrationResult :=
  { itemsMigrated := 3
    achievementsMigrated := 1
    dailyPointsMigrated := 1
    errors := []
    warnings := [] }

/-- A status record whose migration completed. -/
def exCompletedRecord : MigrationStatusRecord :=
  { migrationId := "mig-1"
    userId := "user-1"
    state :=
      { status := MigStatus.completed
        startedAt := some "2024-01-01T00:00:00.000Z"
        completedAt := some "2024-01-01T00:10:00.000Z"
        lastError := none }
    result := some exResult
    options := exOptions }

/-- The completion invariant of the data model: `completed_at` is non-null
iff `completed` is true. -/
def completionInvariant (it : ItemRow) : Prop :=
  it.completed_at ≠ none ↔ it.completed = true

/-- Every item of the store satisfies the completion invariant. -/
def storeItemsInvariant (s : Store) : Prop :=
  ∀ it ∈ s.items, completionInvariant it

/-- Single-item store for the C9 witness. -/
def exStoreC9 : Store :=
  { items := [exItem "i1" "Task" 1], achievements := [], dailyPoints := [] }

/-- The row returned by the C9 witness update (`completed := true` at time
30). -/
def exUpdatedC9 : ItemRow :=
  { exItem "i1" "Task" 1 with
    completed := true
    completed_at := some 30
    updated_at := 30 }

/-- `exStoreC9` after the C9 witness update. -/
def exStoreC9upd : Store :=
  { exStoreC9 with items := [exUpdatedC9] }

/-- Two-member duplicate group for the C3 witness: same text up to case,
the younger row listed first in the store. -/
def exStoreC3 : Store :=
  { items := [exItem "a1" "Design" 10, exItem "a2" "design" 5]
    achievements := []
    dailyPoints := [] }

/-- Singleton-group store for the C3 counterexample. -/
def exStoreC3single : Store :=
  { items := [exItem "s1" "solo" 1], achievements := [], dailyPoints := [] }

/-! ## C1: achievement point capture survives item updates -/

/-- C1: a stored achievement record is untouched by a later `updateItem` call:
`createAchievement` copies `points_earned` from its input, and `updateItem`
rewrites only the items bucket, so the record (and every achievement row)
is unchanged afterwards. -/
theorem c1_achievement_points_frozen
    (input : AchievementCreateInput) (aid : String) (anow : String)
    (itemId : String) (updates : ItemUpdateInput) (unow : Nat)
    (s s₁ s₂ : Store) (a : AchievementRow) (r : Option ItemRow)
    (hrec : createAchievement input aid anow s = .ok (a, s₁))
    (hupd : updateItem itemId updates unow s₁ = .ok (r, s₂)) :
    a.points_earned = input.points_earned ∧
    s₂.achievements = s₁.achievements ∧
    a ∈ s₂.achievements := by
  simp only [createAchievement] at hrec
  split at hrec
  · simp only [Except.ok.injEq, Prod.mk.injEq] at hrec
    obtain ⟨ha, hs⟩ := hrec
    subst ha hs
    simp only [updateItem] at hupd
    split at hupd
    · split at hupd
      · simp only [Except.ok.injEq, Prod.mk.injEq] at hupd
        obtain ⟨-, hs₂⟩ := hupd
        subst hs₂
        simp
      · simp only [Except.ok.injEq, Prod.mk.injEq] at hupd
        obtain ⟨-, hs₂⟩ := hupd
        subst hs₂
        simp
    · exact absurd hupd (by simp)
  · exact absurd hrec (by simp)

/-- Witness for C1 at a concrete store: one achievement recorded with 25
points, then the source item's points changed to 999. -/
theorem c1_witness :
    (exAch.points_earned = 25 ∧
      exStoreAfterUpd.achievements = exStoreAfterRec.achievements ∧
      exAch ∈ exStoreAfterUpd.achievements) :=
  c1_achievement_points_frozen
    { item_id := "123e4567-e89b-12d3-a456-426614174000", points_earned := 25 }
    "ach-1" "2024-01-01T00:00:00.000Z" "i1" { points := some 999 } 50
    exStoreC1 exStoreAfterRec exStoreAfterUpd exAch
    (some { exItem "i1" "Ship" 1 with points := 999, updated_at := 50 })
    (by decide) (by decide)

/-! ## C2: soft delete touches exactly one row -/

/-- C2: when `deleteItem` succeeds it rewrites exactly the first row carrying
the requested id, changing only its `deleted_at` and `updated_at`; every
other position of the items bucket, and the other two buckets, are returned
unchanged — in particular no child of the deleted item is touched. -/
theorem c2_softDelete_frame
    (itemId : String) (now : Nat) (s : Store) (r : ItemRow) (s' : Store)
    (h : deleteItem itemId now s = some (r, s')) :
    ∃ hi : s.items.findIdx (fun item => item.id == itemId) < s.items.length,
      (s.items.get ⟨s.items.findIdx (fun item => item.id == itemId), hi⟩).id = itemId ∧
      r = { s.items.get ⟨s.items.findIdx (fun item => item.id == itemId), hi⟩ with
              deleted_at := some now, updated_at := now } ∧
      s'.items = s.items.set (s.items.findIdx (fun item => item.id == itemId)) r ∧
      s'.achievements = s.achievements ∧
      s'.dailyPoints = s.dailyPoints ∧
      ∀ j, j ≠ s.items.findIdx (fun item => item.id == itemId) →
        s'.items[j]? = s.items[j]? := by
  simp only [deleteItem] at h
  split at h
  case isTrue hi =>
    simp only [Option.some.injEq, Prod.mk.injEq] at h
    obtain ⟨hr, hs⟩ := h
    refine ⟨hi, ?_, ?_, ?_, ?_, ?_, ?_⟩
    · have hp := @List.findIdx_getElem _ (fun item => item.id == itemId) s.items hi
      simpa [List.get_eq_getElem] using hp
    · exact hr.symm
    · rw [← hs, ← hr]
    · rw [← hs]
    · rw [← hs]
    · intro j hj
      rw [← hs]
      exact List.getElem?_set_ne (fun he => hj he.symm)
  case isFalse =>
    exact absurd h (by simp)

/-- Witness for C2: soft-deleting the parent in a two-row store (parent and
child) leaves the child row untouched. -/
theorem c2_witness :
    ∃ hi : exStoreC2.items.findIdx (fun item => item.id == "p1") < exStoreC2.items.length,
      (exStoreC2.items.get ⟨exStoreC2.items.findIdx (fun item => item.id == "p1"), hi⟩).id = "p1" ∧
      exDeletedParent = { exStoreC2.items.get
          ⟨exStoreC2.items.findIdx (fun item => item.id == "p1"), hi⟩ with
            deleted_at := some 9, updated_at := 9 } ∧
      exStoreC2Deleted.items =
        exStoreC2.items.set (exStoreC2.items.findIdx (fun item => item.id == "p1"))
          exDeletedParent ∧
      exStoreC2Deleted.achievements = exStoreC2.achievements ∧
      exStoreC2Deleted.dailyPoints = exStoreC2.dailyPoints ∧
      ∀ j, j ≠ exStoreC2.items.findIdx (fun item => item.id == "p1") →
        exStoreC2Deleted.items[j]? = exStoreC2.items[j]? :=
  c2_softDelete_frame "p1" 9 exStoreC2 exDeletedParent exStoreC2Deleted (by decide)

/-! ## C8: keep_newest favors the strictly newer local, ties favor remote -/

/-- C8: under `keep_newest`, a strictly newer local `updated_at` makes the
result exactly the local version (the remote version is not in it); when the
remote is at least as new — strictly newer or an exact tie — the result is
empty, keeping the remote version. -/
theorem c8_keep_newest (c : ConflictItem) :
    (c.cloudItem.updated_at < c.localItem.updated_at →
      resolveConflict c ConflictStrategy.keep_newest = [c.localItem] ∧
      c.cloudItem ∉ resolveConflict c ConflictStrategy.keep_newest) ∧
    (c.localItem.updated_at ≤ c.cloudItem.updated_at →
      resolveConflict c ConflictStrategy.keep_newest = []) := by
  constructor
  · intro h
    have hne : c.cloudItem ≠ c.localItem := by
      intro he
      rw [he] at h
      exact lt_irrefl _ h
    have hres : resolveConflict c ConflictStrategy.keep_newest = [c.localItem] := by
      simp [resolveConflict, h]
    refine ⟨hres, ?_⟩
    rw [hres]
    simpa using hne
  · intro h
    have hnl : ¬ c.cloudItem.updated_at < c.localItem.updated_at := not_lt.mpr h
    simp only [resolveConflict, gt_iff_lt, if_neg hnl]
    split <;> rfl

/-- Witness for C8 at concrete conflicts: the strictly-newer-local `id_match`
conflict keeps the local row, and the exact-tie `text_match` conflict keeps
nothing (the remote row survives remotely). -/
theorem c8_keep_newest_witness :
    (resolveConflict exConflictId ConflictStrategy.keep_newest =
        [exConflictId.localItem] ∧
      exConflictId.cloudItem ∉ resolveConflict exConflictId ConflictStrategy.keep_newest) ∧
    resolveConflict exConflictText ConflictStrategy.keep_newest = [] :=
  ⟨(c8_keep_newest exConflictId).1 (by decide),
    (c8_keep_newest exConflictText).2 (by decide)⟩

/-! ## C7: keep_both never mints a new id (corrected) -/

/-- C7 counterexample: resolving the concrete `id_match` conflict with
`keep_both` returns the local item still carrying the very id it collides on —
no new id distinct from the colliding one is produced anywhere in the
resolution module. -/
theorem c7_keep_both_counterexample :
    resolveConflict exConflictId ConflictStrategy.keep_both =
      [exConflictId.cloudItem, exConflictId.localItem] ∧
    exConflictId.localItem.id = exConflictId.cloudItem.id := by
  decide

/-- C7 (amended): `keep_both` on an `id_match` conflict returns the cloud row
followed by the local row unchanged — the local version keeps its colliding
id, new-id generation being deferred to an execution layer absent from the
repository; on a `text_match` conflict only the local row is returned (the
cloud copy already lives remotely), so when the two ids differ both versions
persist as distinct items and no row other than the two conflict sides is
ever produced. -/
theorem c7_keep_both_amended (c : ConflictItem) :
    resolveConflict c ConflictStrategy.keep_both =
      (if c.conflictReason = ConflictReason.id_match then
        [c.cloudItem, c.localItem]
      else
        [c.localItem]) ∧
    c.localItem ∈ resolveConflict c ConflictStrategy.keep_both ∧
    ∀ x ∈ resolveConflict c ConflictStrategy.keep_both,
      x = c.localItem ∨ x = c.cloudItem := by
  refine ⟨?_, ?_, ?_⟩
  · simp only [resolveConflict, beq_iff_eq]
  · simp only [resolveConflict]
    split <;> simp
  · intro x hx
    simp only [resolveConflict] at hx
    split at hx <;> simp at hx <;> tauto

/-- Witness for the amended C7 at the concrete `text_match` conflict: the kept
row is one of the two conflict sides. -/
theorem c7_keep_both_amended_witness :
    exConflictText.localItem = exConflictText.localItem ∨
      exConflictText.localItem = exConflictText.cloudItem :=
  (c7_keep_both_amended exConflictText).2.2 exConflictText.localItem (by decide)

/-! ## C5: linked deletion on an unresolvable id (corrected) -/

/-- C5 counterexample: an id that resolves to a soft-deleted (hence not
active) item is still found by the `getItemById` lookup, so neither path of
`handleItemDeletion` is a no-op on it: the single-delete path re-stamps the
deleted row and reports one deletion, and the delete-all path soft-deletes
the active item sharing the text. -/
theorem c5_deletion_counterexample :
    (∃ it ∈ exStoreC5.items, it.id = "d1" ∧ it.deleted_at ≠ none) ∧
    (handleItemDeletion "d1" false 7 exStoreC5).1.deletedCount = 1 ∧
    (handleItemDeletion "d1" false 7 exStoreC5).2 ≠ exStoreC5 ∧
    (handleItemDeletion "d1" true 7 exStoreC5).1.deletedCount = 1 ∧
    (handleItemDeletion "d1" true 7 exStoreC5).2 ≠ exStoreC5 := by
  decide

/-- C5 (amended): `handleItemDeletion` is a no-op returning a zero count and
an empty id list, for both values of `deleteAll`, exactly when the id matches
no row of the store at all — soft-deleted rows are still found by the lookup
and are not exempt. -/
theorem c5_deletion_noop_amended (itemId : String) (deleteAll : Bool) (now : Nat)
    (s : Store) (h : ∀ it ∈ s.items, it.id ≠ itemId) :
    handleItemDeletion itemId deleteAll now s = (⟨0, []⟩, s) := by
  have hfind : getItemById itemId s = none := by
    simp only [getItemById, List.find?_eq_none]
    intro x hx
    simpa using h x hx
  simp [handleItemDeletion, hfind]

/-- Witness for the amended C5 at a concrete store and an id absent from
it. -/
theorem c5_deletion_noop_witness :
    handleItemDeletion "zz" true 7 exStoreC5 = (⟨0, []⟩, exStoreC5) :=
  c5_deletion_noop_amended "zz" true 7 exStoreC5 (by decide)

/-! ## C10: date-range point sum and owner scoping (corrected) -/

/-- Folding `+ points_earned` with accumulator `n` adds the sum of the mapped
list. -/
theorem foldl_points_eq_sum (l : List AchievementRow) (n : Nat) :
    l.foldl (fun sum a => sum + a.points_earned) n =
      n + (l.map (fun a => a.points_earned)).sum := by
  induction l generalizing n with
  | nil => simp
  | cons x xs ih => simp [ih, Nat.add_assoc]

/-- C10 counterexample: with a `null` owner argument the owner filter is
disabled, so the record of owner `"bob"` — a different owner than the given
one — is summed rather than excluded: the total is 25 instead of 0. -/
theorem c10_owner_counterexample :
    calculatePointsForDateRange "2024-01-01" "2024-01-01" none exStoreC10 = 25 ∧
    ∀ a ∈ exStoreC10.achievements, a.user_id ≠ none := by
  decide

/-- C10 (amended): `calculatePointsForDateRange` sums `points_earned` over
exactly the records whose `achieved_at` calendar-date part lies inclusively
between the start and end dates and — when a non-null owner is given — whose
`user_id` equals that owner, other owners being excluded; when the owner
argument is null the owner filter is disabled and matching records of every
owner are summed. -/
theorem c10_sum_in_range_amended (startDate endDate : String) (userId : String)
    (s : Store) :
    calculatePointsForDateRange startDate endDate (some userId) s =
      ((s.achievements.filter (fun a =>
          strLe startDate (datePart a.achieved_at) &&
          strLe (datePart a.achieved_at) endDate &&
          a.user_id == some userId)).map (fun a => a.points_earned)).sum ∧
    calculatePointsForDateRange startDate endDate none s =
      ((s.achievements.filter (fun a =>
          strLe startDate (datePart a.achieved_at) &&
          strLe (datePart a.achieved_at) endDate)).map
        (fun a => a.points_earned)).sum := by
  constructor
  · have hfilter : getAchievementsByDateRange startDate endDate (some userId) s =
        s.achievements.filter (fun a =>
          strLe startDate (datePart a.achieved_at) &&
          strLe (datePart a.achieved_at) endDate &&
          a.user_id == some userId) := by
      unfold getAchievementsByDateRange
      apply List.filter_congr
      intro x hx
      simp [Bool.and_assoc]
    rw [calculatePointsForDateRange, hfilter, foldl_points_eq_sum, Nat.zero_add]
  · have hfilter : getAchievementsByDateRange startDate endDate none s =
        s.achievements.filter (fun a =>
          strLe startDate (datePart a.achieved_at) &&
          strLe (datePart a.achieved_at) endDate) := by
      unfold getAchievementsByDateRange
      apply List.filter_congr
      intro x hx
      simp
    rw [calculatePointsForDateRange, hfilter, foldl_points_eq_sum, Nat.zero_add]

/-! ## C6: the daily baseline record is idempotent per (owner, date) -/

/-- C6: starting from a store satisfying the at-most-one-record-per-(owner,
date) invariant, two successive `ensureDailyPointsRecord` calls for the same
owner and date return rows with the same id, the second call leaves the store
unchanged, and the store afterwards holds exactly one record for the pair. -/
theorem c6_daily_baseline_idempotent
    (date : String) (userId : Option String) (bp : Nat)
    (id₁ id₂ : String) (now₁ now₂ : String) (s s₁ s₂ : Store)
    (r₁ r₂ : DailyPointsRow)
    (hinv : s.dailyPoints.countP (fun dp => dp.date == date && dp.user_id == userId) ≤ 1)
    (h₁ : ensureDailyPointsRecord date userId bp id₁ now₁ s = .ok (r₁, s₁))
    (h₂ : ensureDailyPointsRecord date userId bp id₂ now₂ s₁ = .ok (r₂, s₂)) :
    r₁.id = r₂.id ∧ s₂ = s₁ ∧
    s₂.dailyPoints.countP (fun dp => dp.date == date && dp.user_id == userId) = 1 := by
  simp only [ensureDailyPointsRecord] at h₁ h₂
  split at h₁
  case isTrue hdate =>
    rw [if_pos hdate] at h₂
    split at h₁
    case h_1 e hfind =>
      simp only [Except.ok.injEq, Prod.mk.injEq] at h₁
      obtain ⟨hr₁, hs₁⟩ := h₁
      subst hs₁
      rw [hfind] at h₂
      simp only [Except.ok.injEq, Prod.mk.injEq] at h₂
      obtain ⟨hr₂, hs₂⟩ := h₂
      subst hr₁ hr₂ hs₂
      refine ⟨rfl, rfl, ?_⟩
      have hmem := List.mem_of_find?_eq_some hfind
      have hp := List.find?_some hfind
      have hpos : 0 < s.dailyPoints.countP
          (fun dp => dp.date == date && dp.user_id == userId) := by
        rw [List.countP_pos_iff]
        exact ⟨e, hmem, hp⟩
      omega
    case h_2 hfind =>
      simp only [Except.ok.injEq, Prod.mk.injEq] at h₁
      obtain ⟨hr₁, hs₁⟩ := h₁
      subst hs₁
      have hrecp : (fun dp => dp.date == date && dp.user_id == userId)
          ({ id := id₁, user_id := userId, date := date, baseline_points := bp,
             created_at := now₁ } : DailyPointsRow) = true := by
        simp
      have hfind₂ : getDailyPointsForDate date userId
          { s with dailyPoints := s.dailyPoints ++
            [{ id := id₁, user_id := userId, date := date, baseline_points := bp,
               created_at := now₁ }] } =
          some { id := id₁, user_id := userId, date := date, baseline_points := bp,
                 created_at := now₁ } := by
        unfold getDailyPointsForDate at hfind ⊢
        simp only [List.find?_append, hfind, Option.none_or]
        simp
      rw [hfind₂] at h₂
      simp only [Except.ok.injEq, Prod.mk.injEq] at h₂
      obtain ⟨hr₂, hs₂⟩ := h₂
      subst hr₁ hr₂ hs₂
      refine ⟨rfl, rfl, ?_⟩
      have hzero : s.dailyPoints.countP
          (fun dp => dp.date == date && dp.user_id == userId) = 0 := by
        rw [List.countP_eq_zero]
        intro a ha
        have := List.find?_eq_none.mp hfind a ha
        simpa using this
      simp [List.countP_append, hzero, List.countP_cons, hrecp]
  case isFalse =>
    exact absurd h₁ (by simp)

/-- Witness for C6: two calls on an initially empty store create then reuse
the same record for `(none, "2024-01-01")`. -/
theorem c6_daily_baseline_witness :
    exDaily1.id = exDaily2.id ∧ exStoreC6b = exStoreC6a ∧
    exStoreC6b.dailyPoints.countP
      (fun dp => dp.date == "2024-01-01" && dp.user_id == none) = 1 :=
  c6_daily_baseline_idempotent "2024-01-01" none 10 "dp-1" "dp-2"
    "2024-01-01T08:00:00.000Z" "2024-01-01T09:00:00.000Z"
    { items := [], achievements := [], dailyPoints := [] }
    exStoreC6a exStoreC6b exDaily1 exDaily2
    (by decide) (by decide) (by decide)

/-! ## C4: a completed migration is not terminal (corrected) -/

/-- C4 counterexample: `initializeMigration` is permitted while the stored
record is `completed` (only `in_progress` blocks it) and overwrites the slot
with a fresh `pending` record, after which `isMigrationCompleted` reports
`false` — so a completed migration does not block a re-run by itself. -/
theorem c4_completed_overwritten_counterexample :
    isMigrationCompleted (some exCompletedRecord) = true ∧
    initializeMigration "user-2" exOptions "mig-2" (some exCompletedRecord) =
      .ok (freshMigrationRecord "user-2" exOptions "mig-2",
        some (freshMigrationRecord "user-2" exOptions "mig-2")) ∧
    isMigrationCompleted
      (some (freshMigrationRecord "user-2" exOptions "mig-2")) = false := by
  decide

/-- C4 (amended): once the stored record has status `completed`,
`isMigrationCompleted` reports true, `resetMigration` always refuses (only
failed migrations may be reset) and `completeMigration` keeps the status
completed; but `initializeMigration` — permitted because only `in_progress`
blocks it — replaces the record with a fresh `pending` one, after which
`isMigrationCompleted` reports false, so terminality is not enforced against
re-initialization. -/
theorem c4_completed_amended (st : Option MigrationStatusRecord)
    (r : MigrationStatusRecord) (hst : st = some r)
    (hc : r.state.status = MigStatus.completed) :
    isMigrationCompleted st = true ∧
    (∀ mid, ∃ e, resetMigration mid st = .error e) ∧
    (∀ mid res now st', completeMigration mid res now st = .ok st' →
      isMigrationCompleted st' = true) ∧
    (∀ uid opts fid,
      initializeMigration uid opts fid st =
        .ok (freshMigrationRecord uid opts fid,
          some (freshMigrationRecord uid opts fid)) ∧
      isMigrationCompleted (some (freshMigrationRecord uid opts fid)) = false) := by
  subst hst
  refine ⟨?_, ?_, ?_, ?_⟩
  · simp [isMigrationCompleted, getMigrationStatus, hc]
  · intro mid
    by_cases hmid : (r.migrationId == mid) = true
    · refine ⟨"Can only reset failed migrations", ?_⟩
      simp [resetMigration, getMigrationStatus, hmid, hc]
    · refine ⟨"Migration record not found", ?_⟩
      simp [resetMigration, getMigrationStatus, hmid]
  · intro mid res now st' h
    simp only [completeMigration, getMigrationStatus] at h
    split at h
    · simp only [Except.ok.injEq] at h
      subst h
      simp [isMigrationCompleted, getMigrationStatus]
    · exact absurd h (by simp)
  · intro uid opts fid
    constructor
    · simp [initializeMigration, getMigrationStatus, hc]
    · simp [isMigrationCompleted, getMigrationStatus, freshMigrationRecord]

/-- Witness for the amended C4 at the concrete completed record. -/
theorem c4_completed_amended_witness :
    isMigrationCompleted (some exCompletedRecord) = true ∧
    (∃ e, resetMigration "mig-1" (some exCompletedRecord) = .error e) ∧
    isMigrationCompleted
      (some (freshMigrationRecord "user-2" exOptions "mig-2")) = false :=
  ⟨(c4_completed_amended (some exCompletedRecord) exCompletedRecord rfl rfl).1,
    (c4_completed_amended (some exCompletedRecord) exCompletedRecord rfl rfl).2.1 "mig-1",
    ((c4_completed_amended (some exCompletedRecord) exCompletedRecord rfl rfl).2.2.2
      "user-2" exOptions "mig-2").2⟩

/-! ## C9: the completion invariant is preserved by every item operation -/

/-- Rows of a store whose items all satisfy the completion invariant still do
after one position is overwritten with an invariant-satisfying row. -/
theorem storeInvariant_set (s : Store) (i : Nat) (v : ItemRow)
    (hinv : storeItemsInvariant s) (hv : completionInvariant v) :
    ∀ it ∈ s.items.set i v, completionInvariant it := by
  intro it hit
  rcases List.mem_or_eq_of_mem_set hit with h | h
  · exact hinv it h
  · subst h
    exact hv

/-- The row merged by `updateItem` satisfies the completion invariant
whenever the current row does, for the exact `completed_at` expression the
source computes. -/
theorem mergeUpdate_completion (cur : ItemRow) (u : ItemUpdateInput) (now : Nat)
    (hcur : completionInvariant cur) :
    completionInvariant (mergeUpdate cur u
      (if u.completed == some true && !cur.completed then some now
       else if u.completed == some false then none
       else cur.completed_at) now) := by
  unfold completionInvariant at hcur ⊢
  rcases hu : u.completed with _ | b
  · simpa [mergeUpdate, hu] using hcur
  · cases b
    · simp [mergeUpdate, hu]
    · cases hc : cur.completed
      · simp [mergeUpdate, hu, hc]
      · rw [hc] at hcur
        simp only [mergeUpdate, hu, hc]
        simpa using hcur

/-- C9: `createItem`, `updateItem`, `deleteItem` and `restoreItem` all
preserve the invariant that `completed_at` is non-null iff `completed` is
true; and the row `updateItem` returns stamps `completed_at` to `now` when
the partial sets `completed` to true while the current value is false, keeps
it when the current value is already true, clears it when the partial sets
`completed` to false, and leaves both completion fields unchanged when the
partial omits `completed`. -/
theorem c9_completion_invariant :
    (∀ input id now s it s', createItem input id now s = .ok (it, s') →
      storeItemsInvariant s → storeItemsInvariant s') ∧
    (∀ itemId u now s r s', updateItem itemId u now s = .ok (r, s') →
      storeItemsInvariant s → storeItemsInvariant s') ∧
    (∀ itemId now s r s', deleteItem itemId now s = some (r, s') →
      storeItemsInvariant s → storeItemsInvariant s') ∧
    (∀ itemId now s r s', restoreItem itemId now s = some (r, s') →
      storeItemsInvariant s → storeItemsInvariant s') ∧
    (∀ itemId u now s r s', updateItem itemId u now s = .ok (some r, s') →
      ∃ hi : s.items.findIdx (fun item => item.id == itemId) < s.items.length,
        ((u.completed = some true →
          ((s.items.get ⟨s.items.findIdx (fun item => item.id == itemId), hi⟩).completed
              = false →
            r.completed_at = some now ∧ r.completed = true) ∧
          ((s.items.get ⟨s.items.findIdx (fun item => item.id == itemId), hi⟩).completed
              = true →
            r.completed_at =
              (s.items.get ⟨s.items.findIdx
                (fun item => item.id == itemId), hi⟩).completed_at ∧
            r.completed = true)) ∧
        (u.completed = some false → r.completed_at = none ∧ r.completed = false) ∧
        (u.completed = none →
          r.completed_at =
            (s.items.get ⟨s.items.findIdx (fun item => item.id == itemId), hi⟩).completed_at ∧
          r.completed =
            (s.items.get ⟨s.items.findIdx (fun item => item.id == itemId), hi⟩).completed))) := by
  refine ⟨?_, ?_, ?_, ?_, ?_⟩
  · intro input id now s it s' h hinv
    simp only [createItem] at h
    split at h
    · simp only [Except.ok.injEq, Prod.mk.injEq] at h
      obtain ⟨hit, hs⟩ := h
      subst hs
      intro x hx
      rcases List.mem_append.mp hx with hx | hx
      · exact hinv x hx
      · simp only [List.mem_singleton] at hx
        subst hx
        simp [completionInvariant]
    · exact absurd h (by simp)
  · intro itemId u now s r s' h hinv
    simp only [updateItem] at h
    split at h
    · split at h
      case isTrue hfound =>
        simp only [Except.ok.injEq, Prod.mk.injEq] at h
        obtain ⟨-, hs⟩ := h
        subst hs
        intro x hx
        refine storeInvariant_set s _ _ hinv ?_ x hx
        exact mergeUpdate_completion _ u now
          (hinv _ (List.get_mem s.items _ hfound))
      case isFalse =>
        simp only [Except.ok.injEq, Prod.mk.injEq] at h
        obtain ⟨-, hs⟩ := h
        subst hs
        exact hinv
    · exact absurd h (by simp)
  · intro itemId now s r s' h hinv
    simp only [deleteItem] at h
    split at h
    case isTrue hfound =>
      simp only [Option.some.injEq, Prod.mk.injEq] at h
      obtain ⟨-, hs⟩ := h
      subst hs
      intro x hx
      refine storeInvariant_set s _ _ hinv ?_ x hx
      have hcur := hinv _ (List.get_mem s.items _ hfound)
      simpa [completionInvariant] using hcur
    case isFalse =>
      exact absurd h (by simp)
  · intro itemId now s r s' h hinv
    simp only [restoreItem] at h
    split at h
    case isTrue hfound =>
      simp only [Option.some.injEq, Prod.mk.injEq] at h
      obtain ⟨-, hs⟩ := h
      subst hs
      intro x hx
      refine storeInvariant_set s _ _ hinv ?_ x hx
      have hcur := hinv _ (List.get_mem s.items _ hfound)
      simpa [completionInvariant] using hcur
    case isFalse =>
      exact absurd h (by simp)
  · intro itemId u now s r s' h
    simp only [updateItem] at h
    split at h
    · split at h
      case isTrue hi =>
        simp only [Except.ok.injEq, Prod.mk.injEq, Option.some.injEq] at h
        obtain ⟨hr, -⟩ := h
        refine ⟨hi, ?_, ?_, ?_⟩
        · intro hu
          constructor
          · intro hc
            simp only [List.get_eq_getElem] at hc
            simp [← hr, mergeUpdate, hu, hc, List.get_eq_getElem]
          · intro hc
            simp only [List.get_eq_getElem] at hc
            simp [← hr, mergeUpdate, hu, hc, List.get_eq_getElem]
        · intro hu
          simp [← hr, mergeUpdate, hu]
        · intro hu
          simp [← hr, mergeUpdate, hu, List.get_eq_getElem]
      case isFalse =>
        simp at h
    · exact absurd h (by simp)

/-- Witness for C9: updating the concrete store by setting `completed := true`
keeps the invariant, and the returned row is stamped at the update time. -/
theorem c9_completion_invariant_witness :
    storeItemsInvariant exStoreC9upd ∧
    exUpdatedC9.completed_at = some 30 ∧ exUpdatedC9.completed = true :=
  have hmain := c9_completion_invariant
  have hpart := hmain.2.2.2.2 "i1" { completed := some true } 30 exStoreC9
    exUpdatedC9 exStoreC9upd (by decide)
  have hinv := hmain.2.1 "i1" { completed := some true } 30 exStoreC9
    (some exUpdatedC9) exStoreC9upd (by decide)
    (by unfold storeItemsInvariant completionInvariant; decide)
  ⟨hinv, by
    obtain ⟨hi, hstamp, -, -⟩ := hpart
    exact (hstamp rfl).1 rfl⟩

/-! ## C3: canonical instance resolution

Helper lemmas about the stable sort, the text lookup, the duplicate map and
the enrichment pass. -/

/-- Membership in a stable insertion. -/
theorem sortedInsert_mem (x b : ItemRow) (l : List ItemRow) :
    b ∈ sortedInsertByCreated x l ↔ b = x ∨ b ∈ l := by
  induction l with
  | nil => simp [sortedInsertByCreated]
  | cons y ys ih =>
    by_cases hlt : x.created_at < y.created_at
    · simp [sortedInsertByCreated, hlt]
    · simp only [sortedInsertByCreated, if_neg hlt, List.mem_cons, ih]
      tauto

/-- A stable insertion is a permutation of consing. -/
theorem sortedInsert_perm (x : ItemRow) (l : List ItemRow) :
    (sortedInsertByCreated x l).Perm (x :: l) := by
  induction l with
  | nil => simp [sortedInsertByCreated]
  | cons y ys ih =>
    by_cases hlt : x.created_at < y.created_at
    · simp [sortedInsertByCreated, hlt]
    · rw [sortedInsertByCreated, if_neg hlt]
      exact (ih.cons y).trans (List.Perm.swap x y ys)

/-- A stable insertion into a `created_at`-sorted list stays sorted. -/
theorem sortedInsert_sorted (x : ItemRow) (l : List ItemRow)
    (h : l.Sorted (fun a b => a.created_at ≤ b.created_at)) :
    (sortedInsertByCreated x l).Sorted (fun a b => a.created_at ≤ b.created_at) := by
  induction l with
  | nil => simp [sortedInsertByCreated]
  | cons y ys ih =>
    rw [List.sorted_cons] at h
    obtain ⟨hy, hys⟩ := h
    by_cases hlt : x.created_at < y.created_at
    · rw [sortedInsertByCreated, if_pos hlt, List.sorted_cons]
      refine ⟨?_, List.sorted_cons.mpr ⟨hy, hys⟩⟩
      intro b hb
      rcases List.mem_cons.mp hb with hb | hb
      · exact le_of_lt (hb ▸ hlt)
      · exact le_trans (le_of_lt hlt) (hy b hb)
    · rw [sortedInsertByCreated, if_neg hlt, List.sorted_cons]
      refine ⟨?_, ih hys⟩
      intro b hb
      rcases (sortedInsert_mem x b ys).mp hb with hb | hb
      · exact hb ▸ le_of_not_lt hlt
      · exact hy b hb

/-- The insertion-sort fold is a permutation of the input prepended to the
accumulator. -/
theorem sortFold_perm (l acc : List ItemRow) :
    (l.foldl (fun acc x => sortedInsertByCreated x acc) acc).Perm (l ++ acc) := by
  induction l generalizing acc with
  | nil => simp
  | cons x xs ih =>
    have h1 := ih (sortedInsertByCreated x acc)
    have h2 : (xs ++ sortedInsertByCreated x acc).Perm (xs ++ x :: acc) :=
      List.Perm.append_left xs (sortedInsert_perm x acc)
    have h3 : (xs ++ x :: acc).Perm (x :: (xs ++ acc)) := List.perm_middle
    exact (h1.trans h2).trans h3

/-- `sortByCreatedAt` permutes its input. -/
theorem sortByCreatedAt_perm (l : List ItemRow) :
    (sortByCreatedAt l).Perm l := by
  have h := sortFold_perm l []
  simpa [sortByCreatedAt] using h

/-- `sortByCreatedAt` sorts by `created_at`. -/
theorem sortByCreatedAt_sorted (l : List ItemRow) :
    (sortByCreatedAt l).Sorted (fun a b => a.created_at ≤ b.created_at) := by
  have hgen : ∀ (l acc : List ItemRow),
      acc.Sorted (fun a b => a.created_at ≤ b.created_at) →
      (l.foldl (fun acc x => sortedInsertByCreated x acc) acc).Sorted
        (fun a b => a.created_at ≤ b.created_at) := by
    intro l
    induction l with
    | nil => intro acc hacc; simpa using hacc
    | cons x xs ih =>
      intro acc hacc
      exact ih _ (sortedInsert_sorted x acc hacc)
  exact hgen l [] (by simp)

/-- Membership in the text lookup: exactly the active rows whose lowercased
text matches. -/
theorem mem_getItemsByText (text : String) (s : Store) (x : ItemRow) :
    x ∈ getItemsByText text s ↔
      x ∈ s.items ∧ lowerStr x.text = lowerStr text ∧ x.deleted_at = none := by
  unfold getItemsByText
  rw [(sortByCreatedAt_perm _).mem_iff, List.mem_filter]
  simp [and_assoc]

/-- Search texts with the same lowercase form give the same lookup result. -/
theorem getItemsByText_congr (t₁ t₂ : String) (s : Store)
    (h : lowerStr t₁ = lowerStr t₂) :
    getItemsByText t₁ s = getItemsByText t₂ s := by
  unfold getItemsByText
  rw [h]

/-- The text lookup preserves the no-duplicate-ids property of the store. -/
theorem getItemsByText_nodup_ids (text : String) (s : Store)
    (h : (s.items.map (fun it => it.id)).Nodup) :
    ((getItemsByText text s).map (fun it => it.id)).Nodup := by
  unfold getItemsByText
  have hperm := (sortByCreatedAt_perm (s.items.filter
    (fun item => lowerStr item.text == lowerStr text &&
      item.deleted_at == none))).map (fun it => it.id)
  refine hperm.symm.nodup ?_
  have hsub : ((s.items.filter (fun item => lowerStr item.text == lowerStr text &&
      item.deleted_at == none)).map (fun it => it.id)).Sublist
      (s.items.map (fun it => it.id)) :=
    (List.filter_sublist s.items).map (fun it => it.id)
  exact hsub.nodup h

/-- `mapGet` after `mapSet`: the JavaScript `Map` get/set law on the
association list. -/
theorem mapGet_mapSet (k k2 : String) (v : List ItemRow)
    (m : List (String × List ItemRow)) :
    mapGet k (mapSet k2 v m) = if k2 = k then some v else mapGet k m := by
  induction m with
  | nil =>
    by_cases h : k2 = k <;> simp [mapSet, mapGet, h]
  | cons e m ih =>
    obtain ⟨k3, v3⟩ := e
    simp only [mapSet]
    by_cases h32 : (k3 == k2) = true
    · have h32e : k3 = k2 := by simpa using h32
      subst h32e
      rw [if_pos h32]
      by_cases hk : k3 = k <;> simp [mapGet, hk]
    · have h32e : ¬ k3 = k2 := by simpa using h32
      rw [if_neg (by simpa using h32e)]
      simp only [mapGet, ih]
      by_cases h3k : (k3 == k) = true
      · have h3ke : k3 = k := by simpa using h3k
        subst h3ke
        have hk2 : ¬ k2 = k3 := fun he => h32e he.symm
        simp [h3k, hk2]
      · simp [h3k]

/-- Looking up any key after registering value `v` under every id of `g`. -/
theorem mapGet_foldl_mapSet (g : List ItemRow) (v : List ItemRow) (k : String)
    (m : List (String × List ItemRow)) :
    mapGet k (g.foldl (fun m dup => mapSet dup.id v m) m) =
      if k ∈ g.map (fun it => it.id) then some v else mapGet k m := by
  induction g generalizing m with
  | nil => simp
  | cons d g ih =>
    rw [List.foldl_cons, ih]
    by_cases hmem : k ∈ g.map (fun it => it.id)
    · simp [hmem]
    · rw [if_neg hmem, mapGet_mapSet]
      by_cases hdk : d.id = k
      · simp [hdk]
      · simp only [List.map_cons, List.mem_cons, hmem, or_false]
        rw [if_neg hdk, if_neg (fun he : k = d.id => hdk he.symm)]

/-- The first pass of the enrichment skips every item whose lowercased text
was already processed. -/
theorem duplicatesMapFold_skip (s : Store) (l : List ItemRow)
    (st : List String × List (String × List ItemRow))
    (h : ∀ x ∈ l, st.1.contains (lowerStr x.text) = true) :
    l.foldl (duplicatesMapStep s) st = st := by
  induction l with
  | nil => rfl
  | cons x xs ih =>
    rw [List.foldl_cons]
    have hstep : duplicatesMapStep s st x = st := by
      unfold duplicatesMapStep
      rw [if_pos (h x (List.mem_cons_self x xs))]
    rw [hstep]
    exact ih (fun y hy => h y (List.mem_cons_of_mem x hy))

/-- For a text group with more than one member, the duplicates map built over
the group maps every member id to the whole group. -/
theorem buildDuplicatesMap_group (text : String) (s : Store) (x : ItemRow)
    (hx : x ∈ getItemsByText text s)
    (hlen : 1 < (getItemsByText text s).length) :
    mapGet x.id (buildDuplicatesMap s (getItemsByText text s)) =
      some (getItemsByText text s) := by
  obtain ⟨x₀, rest, hcons⟩ : ∃ a l, getItemsByText text s = a :: l := by
    cases hGc : getItemsByText text s with
    | nil => rw [hGc] at hlen; simp at hlen
    | cons a l => exact ⟨a, l, rfl⟩
  have hlow : ∀ y ∈ getItemsByText text s, lowerStr y.text = lowerStr text := by
    intro y hy
    exact ((mem_getItemsByText text s y).mp hy).2.1
  have hmem₀ : x₀ ∈ getItemsByText text s := by
    rw [hcons]
    exact List.mem_cons_self _ _
  have hdup₀ : findDuplicateItems x₀.text s = getItemsByText text s := by
    unfold findDuplicateItems
    exact getItemsByText_congr x₀.text text s (hlow x₀ hmem₀)
  have hstep : duplicatesMapStep s ([], []) x₀ =
      ([lowerStr x₀.text],
        (getItemsByText text s).foldl
          (fun m dup => mapSet dup.id (getItemsByText text s) m) []) := by
    unfold duplicatesMapStep
    rw [if_neg (by simp)]
    rw [hdup₀]
    have hgt : (getItemsByText text s).length > 1 := by simpa using hlen
    simp [hgt]
  have hskip : rest.foldl (duplicatesMapStep s)
      ([lowerStr x₀.text],
        (getItemsByText text s).foldl
          (fun m dup => mapSet dup.id (getItemsByText text s) m) []) =
      ([lowerStr x₀.text],
        (getItemsByText text s).foldl
          (fun m dup => mapSet dup.id (getItemsByText text s) m) []) := by
    apply duplicatesMapFold_skip
    intro y hy
    have hylow : lowerStr y.text = lowerStr text := by
      apply hlow
      rw [hcons]
      exact List.mem_cons_of_mem x₀ hy
    have h0low : lowerStr x₀.text = lowerStr text := hlow x₀ hmem₀
    simp [hylow, h0low]
  unfold buildDuplicatesMap
  conv_lhs => rw [hcons]
  rw [List.foldl_cons, hstep, hskip]
  rw [mapGet_foldl_mapSet]
  rw [if_pos (List.mem_map_of_mem (fun it => it.id) hx)]

/-- C3 counterexample: for a non-empty group with a single member the
enrichment attaches no `isCanonical` field at all (absence, not `true`), so
no member of the group carries `isCanonical = true`, against the claim that
exactly one does for every non-empty group. -/
theorem c3_singleton_counterexample :
    getItemsByText "solo" exStoreC3single ≠ [] ∧
    (enrichItemsWithAutoLinks exStoreC3single
        (getItemsByText "solo" exStoreC3single)).countP
      (fun it => it.isCanonical == some true) = 0 := by
  decide

/-- C3 (amended): over a store with pairwise-distinct item ids, for every
non-empty case-insensitive text group `determineCanonicalInstance` returns
the group member with the minimum `createdAt` flagged `isCanonical = true`;
and whenever the group has at least two members, enriching the group yields
exactly one member carrying `isCanonical = true` (a singleton group gets no
enrichment fields, so no member carries the flag then). -/
theorem c3_canonical_amended (text : String) (s : Store)
    (hnd : (s.items.map (fun it => it.id)).Nodup)
    (hne : getItemsByText text s ≠ []) :
    (∃ c rest, determineCanonicalInstance (getItemsByText text s) = some (c, rest) ∧
      c.isCanonical = some true ∧
      c.row ∈ getItemsByText text s ∧
      ∀ x ∈ getItemsByText text s, c.row.created_at ≤ x.created_at) ∧
    (1 < (getItemsByText text s).length →
      (enrichItemsWithAutoLinks s (getItemsByText text s)).countP
        (fun it => it.isCanonical == some true) = 1) := by
  obtain ⟨x₀, rest, hcons⟩ : ∃ a l, getItemsByText text s = a :: l := by
    cases hGc : getItemsByText text s with
    | nil => exact absurd hGc hne
    | cons a l => exact ⟨a, l, rfl⟩
  have hsorted : (getItemsByText text s).Sorted
      (fun a b => a.created_at ≤ b.created_at) :=
    sortByCreatedAt_sorted (s.items.filter
      (fun item => lowerStr item.text == lowerStr text && item.deleted_at == none))
  constructor
  · refine ⟨⟨x₀, none, some true⟩, rest, ?_, rfl, ?_, ?_⟩
    · rw [hcons]
      rfl
    · rw [hcons]
      exact List.mem_cons_self _ _
    · intro x hx
      rw [hcons] at hsorted hx
      rw [List.sorted_cons] at hsorted
      rcases List.mem_cons.mp hx with hx | hx
      · exact le_of_eq (by rw [hx])
      · exact hsorted.1 x hx
  · intro hlen
    simp only [enrichItemsWithAutoLinks]
    rw [List.countP_map]
    rw [List.countP_congr (q := fun y => y.id == x₀.id) ?hc]
    case hc =>
      intro y hy
      simp only [Function.comp_apply]
      rw [buildDuplicatesMap_group text s y hy hlen]
      have hgt : ¬ ((getItemsByText text s).length ≤ 1) := by omega
      rw [hcons] at hgt ⊢
      have hrest : rest ≠ [] := by
        intro he
        subst he
        simp at hgt
      simp [determineCanonicalInstance, hgt, hrest]
    have hnodupG := getItemsByText_nodup_ids text s hnd
    have hx₀mem : x₀.id ∈ (getItemsByText text s).map (fun it => it.id) := by
      rw [hcons]
      simp
    have hcount := List.count_eq_one_of_mem hnodupG hx₀mem
    rw [List.count_eq_countP, List.countP_map] at hcount
    simpa [Function.comp] using hcount

/-- Witness for the amended C3: the two-member `design` group of the concrete
store has the older row canonical and exactly one enriched member flagged. -/
theorem c3_canonical_witness :
    (∃ c rest,
      determineCanonicalInstance (getItemsByText "DESIGN" exStoreC3) = some (c, rest) ∧
      c.isCanonical = some true ∧
      c.row ∈ getItemsByText "DESIGN" exStoreC3 ∧
      ∀ x ∈ getItemsByText "DESIGN" exStoreC3, c.row.created_at ≤ x.created_at) ∧
    (enrichItemsWithAutoLinks exStoreC3 (getItemsByText "DESIGN" exStoreC3)).countP
      (fun it => it.isCanonical == some true) = 1 :=
  have h := c3_canonical_amended "DESIGN" exStoreC3 (by decide) (by decide)
  ⟨h.1, h.2 (by decide)⟩

end Checkpoint
